import Mathlib

/-
Verification of the image-processing application in src/main.py.

The program is a PyQt6 GUI around a stateless facade (class ImageProcessor)
of OpenCV calls and a session controller (class ImageProcessingApp) holding
two image slots (original/processed) plus their rendered previews and
histograms.  This file shallowly embeds:

  - images as nested lists of 8-bit channel values,
  - the external OpenCV primitives (Canny, HoughLines, goodFeaturesToTrack,
    equalizeHist, the colour-space conversions, the drawing primitives and
    imutils.resize) as fields of a record `CV` of pure functions, since the
    repository never reimplements them - the facade only composes them;
    OpenCV double-precision values are modelled by rationals,
  - the arithmetic the repository's own lines perform concretely:
    cv2.convertScaleAbs per-pixel arithmetic (scale, absolute value,
    round-half-to-even, saturate to [0,255]), channel split/merge, Python's
    int() truncation, and the endpoint arithmetic of detect_lines,
  - the session controller as an explicit state machine: load_image and
    process_image become transition functions on an AppState record; an
    unhandled Python exception in a Qt slot (PyQt >= 5.5 calls qFatal and
    aborts the process) is modelled by a `crashed` terminal outcome that
    carries the state at the moment the exception was raised.
-/

/-- An image: a list of rows, each row a list of pixels, each pixel a list of
8-bit channel values (length 3 for BGR colour, length 1 for grayscale). -/
abbrev Image := List (List (List Nat))

/-- Number of channels, read off the first pixel (0 for an empty image);
matches ndarray shape inspection on a well-formed rectangular image. -/
def channels (img : Image) : Nat := ((img.headD []).headD []).length

/-- A valid 8-bit image: every channel value fits in a byte. -/
abbrev ValidImage (img : Image) : Prop := ∀ row ∈ img, ∀ px ∈ row, ∀ c ∈ px, c ≤ 255

/-- OpenCV cvRound: round half to even (banker's rounding), as used by
saturate_cast when converting floating results back to 8-bit. -/
def cvRound (q : ℚ) : ℤ :=
  if q - ⌊q⌋ < 1/2 then ⌊q⌋
  else if 1/2 < q - ⌊q⌋ then ⌊q⌋ + 1
  else if ⌊q⌋ % 2 = 0 then ⌊q⌋ else ⌊q⌋ + 1

/-- Python int() applied to a float: truncation toward zero. -/
def pyInt (q : ℚ) : ℤ := if 0 ≤ q then ⌊q⌋ else ⌈q⌉

/-- Per-pixel semantics of cv2.convertScaleAbs on 8-bit input: the scaled
value alpha*p + beta has its ABSOLUTE VALUE taken, is rounded, and is then
saturated to [0, 255] (the result of abs is already nonnegative). -/
def convertScaleAbsPix (alpha beta : ℚ) (p : Nat) : Nat :=
  (min 255 (cvRound |alpha * (p : ℚ) + beta|)).toNat

/-- Single-channel plane c of an image, as cv2.split produces it: a
grayscale image whose pixels are one-element channel lists. -/
def plane (img : Image) (c : Nat) : Image :=
  img.map (fun row => row.map (fun px => [px.getD c 0]))

/-- cv2.merge of three single-channel planes of identical shape back into a
three-channel image (zip truncates; on the equal shapes produced by split
and equalizeHist it is exact). -/
def merge3 (a b c : Image) : Image :=
  (a.zip (b.zip c)).map (fun rw3 =>
    (rw3.1.zip (rw3.2.1.zip rw3.2.2)).map (fun px3 =>
      [px3.1.headD 0, px3.2.1.headD 0, px3.2.2.headD 0]))

/-- The external image-processing library (OpenCV / imutils) as a record of
pure functions; the repository only composes these, so they are parameters
of the development.  Angles and Hough votes use rationals for doubles;
`pi` is the library's floating approximation of pi. -/
structure CV where
  pi : ℚ
  cos : ℚ → ℚ
  sin : ℚ → ℚ
  canny : Image → Nat → Nat → Image
  houghLines : Image → ℚ → ℚ → Nat → Option (List (ℚ × ℚ))
  goodFeaturesToTrack : Image → Nat → ℚ → Nat → Option (List (ℚ × ℚ))
  equalizeHist : Image → Image
  bgr2hsv : Image → Image
  hsv2bgr : Image → Image
  bgr2gray : Image → Image
  line : Image → ℤ × ℤ → ℤ × ℤ → Nat × Nat × Nat → Nat → Image
  circle : Image → ℤ × ℤ → Nat → Nat × Nat × Nat → ℤ → Image
  resize : Image → Nat → Image

/-- ImageProcessor.linear_contrast (src/main.py:54-56): a single call to
cv2.convertScaleAbs, applied per channel. -/
def linear_contrast (image : Image) (alpha beta : ℚ) : Image :=
  image.map (fun row => row.map (fun px => px.map (convertScaleAbsPix alpha beta)))

/-- ImageProcessor.histogram_equalization_rgb (src/main.py:58-64):
`b, g, r = cv2.split(image)` unpacks successfully only for exactly three
channels (a grayscale input raises ValueError), then each plane is
equalized independently and merged back. -/
def histogram_equalization_rgb (cv : CV) (image : Image) : Except String Image :=
  if channels image = 3 then
    Except.ok (merge3 (cv.equalizeHist (plane image 0))
                      (cv.equalizeHist (plane image 1))
                      (cv.equalizeHist (plane image 2)))
  else Except.error "ValueError: not enough values to unpack from cv2.split"

/-- ImageProcessor.histogram_equalization_hsv (src/main.py:66-72):
cv2.cvtColor BGR2HSV raises cv2.error unless the input has three channels;
on success the value plane alone is equalized and the result converted
back.  The intermediate split/merge cannot fail on the three-channel HSV
output of the conversion, so only the entry conversion is fallible. -/
def histogram_equalization_hsv (cv : CV) (image : Image) : Except String Image :=
  if channels image = 3 then
    Except.ok (cv.hsv2bgr (merge3 (plane (cv.bgr2hsv image) 0)
                                  (plane (cv.bgr2hsv image) 1)
                                  (cv.equalizeHist (plane (cv.bgr2hsv image) 2))))
  else Except.error "cv2.error: invalid number of channels for BGR2HSV"

/-- ImageProcessor.detect_edges (src/main.py:74-76). -/
def detect_edges (cv : CV) (image : Image) (threshold1 threshold2 : Nat) : Image :=
  cv.canny image threshold1 threshold2

/-- ImageProcessor.detect_lines (src/main.py:78-96): Canny with the fixed
thresholds 50/150, cv2.HoughLines, then for each (rho, theta) a red line of
width 2 between int-truncated endpoints (x0 +- 1000*(-sin), y0 +- 1000*cos)
drawn on a copy of the input; None from HoughLines leaves the copy as is. -/
def detect_lines (cv : CV) (image : Image) (rho theta : ℚ) (threshold : Nat) : Image :=
  match cv.houghLines (cv.canny image 50 150) rho theta threshold with
  | none => image
  | some lines =>
      lines.foldl (fun result rt =>
        cv.line result
          (pyInt (cv.cos rt.2 * rt.1 + 1000 * (-(cv.sin rt.2))),
           pyInt (cv.sin rt.2 * rt.1 + 1000 * cv.cos rt.2))
          (pyInt (cv.cos rt.2 * rt.1 - 1000 * (-(cv.sin rt.2))),
           pyInt (cv.sin rt.2 * rt.1 - 1000 * cv.cos rt.2))
          (0, 0, 255) 2) image

/-- ImageProcessor.detect_corners (src/main.py:98-111): cv2.cvtColor
BGR2GRAY raises cv2.error unless the input has three channels; then
cv2.goodFeaturesToTrack, and each corner is drawn as a filled green circle
of radius 5 on a copy of the input; None corners leave the copy as is. -/
def detect_corners (cv : CV) (image : Image) (maxCorners : Nat)
    (qualityLevel : ℚ) (minDistance : Nat) : Except String Image :=
  if channels image = 3 then
    match cv.goodFeaturesToTrack (cv.bgr2gray image) maxCorners qualityLevel minDistance with
    | none => Except.ok image
    | some corners =>
        Except.ok (corners.foldl (fun result c =>
          cv.circle result (pyInt c.1, pyInt c.2) 5 (0, 255, 0) (-1)) image)
  else Except.error "cv2.error: invalid number of channels for BGR2GRAY"

/-- The six processing methods offered by the method combo box
(src/main.py:275-282). -/
inductive Method where
  | linearContrast
  | rgbHistogramEqualization
  | hsvHistogramEqualization
  | edgeDetection
  | lineDetection
  | cornerDetection
deriving DecidableEq

/-- The UI-held parameter values read by process_image: raw widget values
(the alpha slider holds 10*alpha as an integer in 10..30, the quality
slider holds 100*quality; src/main.py:350-425, 446-478). -/
structure UIParams where
  method : Method
  alphaSlider : ℤ
  betaSlider : ℤ
  threshold1 : Nat
  threshold2 : Nat
  rhoSpin : Nat
  thetaSpin : Nat
  thresholdSpin : Nat
  maxCorners : Nat
  qualityLevel : Nat
  minDistance : Nat
deriving DecidableEq

/-- Session and display state of ImageProcessingApp: the two image slots,
the rendered previews (the image last passed, post-resize, to each QLabel)
and the image whose histogram each HistogramWidget currently plots. -/
structure AppState where
  original : Option Image
  processed : Option Image
  originalDisplay : Option Image
  processedDisplay : Option Image
  originalHist : Option Image
  processedHist : Option Image
deriving DecidableEq

/-- Initial state: nothing loaded, nothing displayed (src/main.py:237-238). -/
def initState : AppState := ⟨none, none, none, none, none, none⟩

/-- Outcome of one controller action: either it returns normally with the
new state, or an unhandled Python exception escaped the Qt slot (PyQt6
then aborts the process); `crashed` carries the state at that moment. -/
inductive StepResult where
  | ok (s : AppState)
  | crashed (s : AppState)
deriving DecidableEq

/-- The state carried by a step outcome. -/
def StepResult.state : StepResult → AppState
  | .ok s => s
  | .crashed s => s

/-- ImageProcessingApp.load_image (src/main.py:427-438).  The input models
the file-dialog interaction: `none` is a cancelled dialog (no-op);
`some d` is a chosen path whose cv2.imread decode result is `d`.  When the
decode fails (d = none) the code has ALREADY overwritten self.original_image
with None before display_image raises AttributeError on it, so the crash
state has the original slot cleared and everything else (including the
stale processed slot) untouched. -/
def load_image (cv : CV) (fileName : Option (Option Image)) (s : AppState) : StepResult :=
  match fileName with
  | none => StepResult.ok s
  | some none => StepResult.crashed { s with original := none }
  | some (some img) =>
      StepResult.ok { original := some img,
                      processed := none,
                      originalDisplay := some (cv.resize img 500),
                      processedDisplay := none,
                      originalHist := some img,
                      processedHist := none }

/-- The dispatch table of ImageProcessingApp.process_image
(src/main.py:444-478): which facade operation runs for the selected
method, with the UI values converted exactly as the source does
(alpha = slider/10, theta = pi/thetaSpin, quality = slider/100). -/
def dispatch (cv : CV) (ui : UIParams) (img : Image) : Except String Image :=
  match ui.method with
  | Method.linearContrast =>
      Except.ok (linear_contrast img ((ui.alphaSlider : ℚ) / 10) (ui.betaSlider : ℚ))
  | Method.rgbHistogramEqualization => histogram_equalization_rgb cv img
  | Method.hsvHistogramEqualization => histogram_equalization_hsv cv img
  | Method.edgeDetection => Except.ok (detect_edges cv img ui.threshold1 ui.threshold2)
  | Method.lineDetection =>
      Except.ok (detect_lines cv img (ui.rhoSpin : ℚ) (cv.pi / (ui.thetaSpin : ℚ)) ui.thresholdSpin)
  | Method.cornerDetection =>
      detect_corners cv img ui.maxCorners ((ui.qualityLevel : ℚ) / 100) ui.minDistance

/-- ImageProcessingApp.process_image (src/main.py:440-482): immediate
return when no image is loaded; otherwise the selected operation runs on
the ORIGINAL slot and, on success, its result is stored in the processed
slot and the processed preview and histogram are refreshed.  A facade
exception (only possible for operations requiring three channels) escapes
the slot before self.processed_image is assigned. -/
def process_image (cv : CV) (ui : UIParams) (s : AppState) : StepResult :=
  match s.original with
  | none => StepResult.ok s
  | some img =>
      match dispatch cv ui img with
      | Except.error _ => StepResult.crashed s
      | Except.ok out =>
          StepResult.ok { s with processed := some out,
                                 processedDisplay := some (cv.resize out 500),
                                 processedHist := some out }

/-- A user action on the session: a load (with its dialog/decode outcome)
or a press of the process button with the current UI parameter values. -/
inductive AppAction where
  | load (fileName : Option (Option Image))
  | proc (ui : UIParams)
deriving DecidableEq

/-- One controller step. -/
def step (cv : CV) : AppAction → AppState → StepResult
  | .load f, s => load_image cv f s
  | .proc ui, s => process_image cv ui s

/-- Run a sequence of actions from a state; a crash aborts the process, so
no later action runs. -/
def run (cv : CV) : List AppAction → AppState → StepResult
  | [], s => StepResult.ok s
  | a :: rest, s =>
      match step cv a s with
      | StepResult.ok s1 => run cv rest s1
      | StepResult.crashed s1 => StepResult.crashed s1

/-- The spec's description of the linear-contrast pixel transform, written
from the spec's words for comparison with the source embedding: the scaled
value is CLAMPED to [0, 255] (no absolute value), then rounded to the
nearest representable intensity. -/
def linearContrastClamp (image : Image) (alpha beta : ℚ) : Image :=
  image.map (fun row => row.map (fun px => px.map (fun p =>
    (min 255 (max 0 (cvRound (alpha * (p : ℚ) + beta)))).toNat)))

/-- The spec's description of line detection, written from the spec's
words: edge-detect with fixed thresholds 50/150, run the polar voting line
transform with angular resolution pi / bucket-count, and for each detected
(rho, theta) draw the segment obtained by extending +-1000 units along the
line's direction (-sin theta, cos theta) from its closest point to the
origin (rho cos theta, rho sin theta). -/
def lineDetectSpec (cv : CV) (image : Image) (rho : ℚ) (buckets : Nat) (threshold : Nat) : Image :=
  match cv.houghLines (cv.canny image 50 150) rho (cv.pi / (buckets : ℚ)) threshold with
  | none => image
  | some lines =>
      lines.foldl (fun result rt =>
        cv.line result
          (pyInt (rt.1 * cv.cos rt.2 + 1000 * (-(cv.sin rt.2))),
           pyInt (rt.1 * cv.sin rt.2 + 1000 * cv.cos rt.2))
          (pyInt (rt.1 * cv.cos rt.2 - 1000 * (-(cv.sin rt.2))),
           pyInt (rt.1 * cv.sin rt.2 - 1000 * cv.cos rt.2))
          (0, 0, 255) 2) image

/-- A fully concrete instance of the external-library record, used to
evaluate the embedding on closed inputs: trigonometry and detectors are
trivial (no lines, no corners), conversions and resize are identities. -/
def cvTest : CV :=
  { pi := 314159 / 100000,
    cos := fun _ => 1,
    sin := fun _ => 0,
    canny := fun img _ _ => img,
    houghLines := fun _ _ _ _ => none,
    goodFeaturesToTrack := fun _ _ _ _ => none,
    equalizeHist := fun img => img,
    bgr2hsv := fun img => img,
    hsv2bgr := fun img => img,
    bgr2gray := fun img => img.map (fun row => row.map (fun px => [px.headD 0])),
    line := fun img _ _ _ _ => img,
    circle := fun img _ _ _ _ => img,
    resize := fun img _ => img }

/-- Whether an Except is the error case. -/
def isError {ε α : Type} : Except ε α → Bool
  | Except.error _ => true
  | Except.ok _ => false

lemma getD_map_of_lt {α β : Type} (f : α → β) (l : List α) (i : Nat)
    (h : i < l.length) (d : β) (d' : α) :
    (l.map f).getD i d = f (l.getD i d') := by
  induction l generalizing i with
  | nil => simp at h
  | cons x xs ih =>
      cases i with
      | zero => simp
      | succ j => simp only [List.map_cons, List.getD_cons_succ]; exact ih j (by simpa using h)

lemma map_eq_self_of_mem {α : Type} {f : α → α} {l : List α}
    (h : ∀ x ∈ l, f x = x) : l.map f = l := by
  induction l with
  | nil => rfl
  | cons x xs ih =>
      simp only [List.map_cons]
      rw [h x (by simp), ih (fun y hy => h y (by simp [hy]))]

lemma cvRound_natCast (p : Nat) : cvRound (p : ℚ) = (p : ℤ) := by
  unfold cvRound
  rw [Int.floor_natCast]
  simp

lemma convertScaleAbsPix_one_zero (p : Nat) (hp : p ≤ 255) :
    convertScaleAbsPix 1 0 p = p := by
  unfold convertScaleAbsPix
  rw [show |(1 : ℚ) * (p : ℚ) + 0| = (p : ℚ) by
        rw [one_mul, add_zero]; exact abs_of_nonneg (by positivity)]
  rw [cvRound_natCast]
  rw [min_eq_right (by exact_mod_cast hp)]
  simp

/-- C1: the claim states the linear-contrast output pixel is
clamp(alpha*input + beta, 0, 255), but cv2.convertScaleAbs takes the
ABSOLUTE VALUE of the scaled result before saturating.  At the in-range
parameters alpha = 1, beta = -50 and input pixel 0 the code produces
|0 - 50| = 50 while the claimed clamp produces 0. -/
theorem linear_contrast_clamp_counterexample :
    ((1 : ℚ) ≤ 1 ∧ (1 : ℚ) ≤ 3 ∧ (-50 : ℚ) ≤ -50 ∧ (-50 : ℚ) ≤ 50) ∧
    linear_contrast [[[0]]] 1 (-50) = [[[50]]] ∧
    linearContrastClamp [[[0]]] 1 (-50) = [[[0]]] ∧
    linear_contrast [[[0]]] 1 (-50) ≠ linearContrastClamp [[[0]]] 1 (-50) := by
  have hcode : linear_contrast [[[0]]] 1 (-50) = [[[50]]] := by
    simp [linear_contrast]
    norm_num [convertScaleAbsPix, cvRound]
    rfl
  have hspec : linearContrastClamp [[[0]]] 1 (-50) = [[[0]]] := by
    simp [linearContrastClamp]
    norm_num [cvRound]
  refine ⟨by norm_num, hcode, hspec, ?_⟩
  rw [hcode, hspec]
  decide

/-- C1 (amended): for alpha in [1, 3] and beta in [-50, 50], linear
contrast preserves the shape of the image (the Forall2 relations force
equal lengths at every level) and every output pixel equals
min(255, round(|alpha * input + beta|)) per channel - the absolute value
of the scaled result, saturated to [0, 255], rather than its clamp. -/
theorem linear_contrast_abs_saturate (alpha beta : ℚ) (img : Image)
    ( _h1 : 1 ≤ alpha) ( _h2 : alpha ≤ 3) ( _h3 : -50 ≤ beta) ( _h4 : beta ≤ 50) :
    (linear_contrast img alpha beta).length = img.length ∧
    List.Forall₂ (List.Forall₂ (List.Forall₂ (fun (o p : Nat) =>
        o = (min 255 (cvRound |alpha * (p : ℚ) + beta|)).toNat)))
      (linear_contrast img alpha beta) img := by
  have hf : List.Forall₂ (List.Forall₂ (List.Forall₂ (fun (o p : Nat) =>
      o = (min 255 (cvRound |alpha * (p : ℚ) + beta|)).toNat)))
      (linear_contrast img alpha beta) img := by
    unfold linear_contrast
    rw [List.forall₂_map_left_iff]
    refine List.forall₂_same.mpr (fun row _ => ?_)
    rw [List.forall₂_map_left_iff]
    refine List.forall₂_same.mpr (fun px _ => ?_)
    rw [List.forall₂_map_left_iff]
    exact List.forall₂_same.mpr (fun p _ => rfl)
  exact ⟨hf.length_eq, hf⟩

/-- C1 (witness): the amended theorem instantiated at alpha = 2, beta = 7
and a concrete one-pixel colour image. -/
theorem linear_contrast_abs_saturate_witness :
    ((1 : ℚ) ≤ 2 ∧ (2 : ℚ) ≤ 3 ∧ (-50 : ℚ) ≤ 7 ∧ (7 : ℚ) ≤ 50) ∧
    ((linear_contrast [[[10, 20, 30]]] 2 7).length = ([[[10, 20, 30]]] : Image).length ∧
     List.Forall₂ (List.Forall₂ (List.Forall₂ (fun (o p : Nat) =>
         o = (min 255 (cvRound |2 * (p : ℚ) + 7|)).toNat)))
       (linear_contrast [[[10, 20, 30]]] 2 7) [[[10, 20, 30]]]) :=
  ⟨by decide,
   linear_contrast_abs_saturate 2 7 [[[10, 20, 30]]]
     (by decide) (by decide) (by decide) (by decide)⟩

/-- C3: with alpha = 1 and beta = 0 the linear-contrast operation is the
identity on every valid 8-bit image: |1*p + 0| = p, rounding a natural is
exact, and saturation at 255 does not fire because p <= 255. -/
theorem linear_contrast_identity (img : Image) (h : ValidImage img) :
    linear_contrast img 1 0 = img := by
  unfold linear_contrast
  refine map_eq_self_of_mem (fun row hrow => ?_)
  refine map_eq_self_of_mem (fun px hpx => ?_)
  refine map_eq_self_of_mem (fun p hp => ?_)
  exact convertScaleAbsPix_one_zero p (h row hrow px hpx p hp)

/-- C3 (witness): the identity theorem at a concrete valid image covering
the extreme intensities. -/
theorem linear_contrast_identity_witness :
    ValidImage [[[0, 128, 255]], [[255, 0, 7]]] ∧
    linear_contrast [[[0, 128, 255]], [[255, 0, 7]]] 1 0 = [[[0, 128, 255]], [[255, 0, 7]]] :=
  ⟨by decide, linear_contrast_identity [[[0, 128, 255]], [[255, 0, 7]]] (by decide)⟩

/-- Concrete UI parameter records for closed instantiations: the defaults
the UI installs for edge detection and line detection respectively. -/
def uiEdge : UIParams :=
  ⟨Method.edgeDetection, 10, 0, 100, 200, 1, 180, 100, 25, 10, 10⟩

def uiLine : UIParams :=
  ⟨Method.lineDetection, 10, 0, 100, 200, 1, 180, 100, 25, 10, 10⟩

/-- C2: the claim (and spec section 7) require a failed load to report a
LoadError and leave the prior session state unchanged.  The code instead
assigns cv2.imread's None result to the original slot BEFORE any check, so
a chosen path that does not decode destroys the prior original image and
then raises an uncaught AttributeError inside display_image (aborting the
Qt application) - here evaluated on a session that held an original and a
processed image: the original slot is clobbered to None. -/
theorem load_image_clobbers_on_decode_failure :
    load_image cvTest (some none)
      ⟨some [[[1]]], some [[[2]]], some [[[1]]], some [[[2]]], some [[[1]]], some [[[2]]]⟩
      = StepResult.crashed
        ⟨none, some [[[2]]], some [[[1]]], some [[[2]]], some [[[1]]], some [[[2]]]⟩ ∧
    (StepResult.crashed
        (⟨none, some [[[2]]], some [[[1]]], some [[[2]]], some [[[1]]], some [[[2]]]⟩ : AppState)).state.original
      ≠ (some [[[1]]] : Option Image) :=
  ⟨rfl, by decide⟩

/-- C4: pressing the process button with no loaded image is a no-op for
every selected method and every parameter setting: the transition returns
normally with the state (both image slots, both previews, both
histograms) unchanged. -/
theorem process_image_noop_when_no_image (cv : CV) (ui : UIParams) (s : AppState)
    (h : s.original = none) : process_image cv ui s = StepResult.ok s := by
  unfold process_image
  rw [h]

/-- C4 (witness): processing in the initial (nothing loaded) state. -/
theorem process_image_noop_when_no_image_witness :
    process_image cvTest uiEdge initState = StepResult.ok initState :=
  process_image_noop_when_no_image cvTest uiEdge initState rfl

/-- C5: when the detectors find nothing - HoughLines returning None, or
goodFeaturesToTrack returning None (as on a flat uniform image, whose edge
map and corner response are empty) - line detection returns the input
image unchanged and corner detection returns it unchanged as a normal
(non-error) result. -/
theorem degenerate_detection_identity (cv : CV) (img : Image) :
    (∀ (rho theta : ℚ) (threshold : Nat),
        cv.houghLines (cv.canny img 50 150) rho theta threshold = none →
        detect_lines cv img rho theta threshold = img) ∧
    (∀ (maxCorners : Nat) (quality : ℚ) (minDistance : Nat),
        channels img = 3 →
        cv.goodFeaturesToTrack (cv.bgr2gray img) maxCorners quality minDistance = none →
        detect_corners cv img maxCorners quality minDistance = Except.ok img) := by
  constructor
  · intro rho theta thr h
    unfold detect_lines
    rw [h]
  · intro mc q md h3 hn
    unfold detect_corners
    rw [if_pos h3, hn]

/-- C5 (witness): a flat one-pixel colour image under a library instance
whose detectors report nothing. -/
theorem degenerate_detection_identity_witness :
    cvTest.houghLines (cvTest.canny [[[9, 9, 9]]] 50 150) 1 1 100 = none ∧
    detect_lines cvTest [[[9, 9, 9]]] 1 1 100 = [[[9, 9, 9]]] ∧
    channels [[[9, 9, 9]]] = 3 ∧
    cvTest.goodFeaturesToTrack (cvTest.bgr2gray [[[9, 9, 9]]]) 25 1 10 = none ∧
    detect_corners cvTest [[[9, 9, 9]]] 25 1 10 = Except.ok [[[9, 9, 9]]] :=
  ⟨rfl, (degenerate_detection_identity cvTest [[[9, 9, 9]]]).1 1 1 100 rfl, rfl,
   rfl, (degenerate_detection_identity cvTest [[[9, 9, 9]]]).2 25 1 10 rfl rfl⟩

lemma detect_lines_eq_lineDetectSpec (cv : CV) (image : Image) (rho : ℚ)
    (buckets threshold : Nat) :
    detect_lines cv image rho (cv.pi / (buckets : ℚ)) threshold
      = lineDetectSpec cv image rho buckets threshold := by
  unfold detect_lines lineDetectSpec
  cases h : cv.houghLines (cv.canny image 50 150) rho (cv.pi / (buckets : ℚ)) threshold with
  | none => rfl
  | some lines =>
      have harg : (fun (result : Image) (rt : ℚ × ℚ) =>
          cv.line result
            (pyInt (cv.cos rt.2 * rt.1 + 1000 * (-(cv.sin rt.2))),
             pyInt (cv.sin rt.2 * rt.1 + 1000 * cv.cos rt.2))
            (pyInt (cv.cos rt.2 * rt.1 - 1000 * (-(cv.sin rt.2))),
             pyInt (cv.sin rt.2 * rt.1 - 1000 * cv.cos rt.2))
            (0, 0, 255) 2)
          = (fun (result : Image) (rt : ℚ × ℚ) =>
          cv.line result
            (pyInt (rt.1 * cv.cos rt.2 + 1000 * (-(cv.sin rt.2))),
             pyInt (rt.1 * cv.sin rt.2 + 1000 * cv.cos rt.2))
            (pyInt (rt.1 * cv.cos rt.2 - 1000 * (-(cv.sin rt.2))),
             pyInt (rt.1 * cv.sin rt.2 - 1000 * cv.cos rt.2))
            (0, 0, 255) 2) := by
        funext result rt
        rw [mul_comm (cv.cos rt.2) rt.1, mul_comm (cv.sin rt.2) rt.1]
      rw [harg]

/-- C6: line detection is exactly the spec's pipeline: Canny with the
fixed thresholds 50/150, then the polar voting transform at angular
resolution pi / bucket-count, then for each (rho, theta) a segment
extending +-1000 units along the line direction from its closest point to
the origin, drawn on a copy of the input; and process_image dispatches the
Line Detection method to it with exactly those arguments. -/
theorem detect_lines_pipeline (cv : CV) :
    (∀ (image : Image) (rho : ℚ) (buckets threshold : Nat),
        detect_lines cv image rho (cv.pi / (buckets : ℚ)) threshold
          = lineDetectSpec cv image rho buckets threshold) ∧
    (∀ (ui : UIParams) (s : AppState) (img : Image),
        s.original = some img → ui.method = Method.lineDetection →
        process_image cv ui s = StepResult.ok { s with
          processed := some (lineDetectSpec cv img (ui.rhoSpin : ℚ) ui.thetaSpin ui.thresholdSpin),
          processedDisplay := some (cv.resize
            (lineDetectSpec cv img (ui.rhoSpin : ℚ) ui.thetaSpin ui.thresholdSpin) 500),
          processedHist := some (lineDetectSpec cv img (ui.rhoSpin : ℚ) ui.thetaSpin ui.thresholdSpin) }) := by
  constructor
  · exact detect_lines_eq_lineDetectSpec cv
  · intro ui s img hs hm
    unfold process_image
    rw [hs]
    unfold dispatch
    rw [hm]
    simp only []
    rw [detect_lines_eq_lineDetectSpec]

/-- C6 (witness): the pipeline equality and the dispatch equation at the
UI's line-detection defaults (rho 1, 180 buckets, threshold 100) on a
loaded one-pixel image. -/
theorem detect_lines_pipeline_witness :
    detect_lines cvTest [[[4, 4, 4]]] 1 (cvTest.pi / ((180 : Nat) : ℚ)) 100
      = lineDetectSpec cvTest [[[4, 4, 4]]] 1 180 100 ∧
    process_image cvTest uiLine ⟨some [[[4, 4, 4]]], none, none, none, none, none⟩
      = StepResult.ok { (⟨some [[[4, 4, 4]]], none, none, none, none, none⟩ : AppState) with
          processed := some (lineDetectSpec cvTest [[[4, 4, 4]]] (uiLine.rhoSpin : ℚ)
            uiLine.thetaSpin uiLine.thresholdSpin),
          processedDisplay := some (cvTest.resize (lineDetectSpec cvTest [[[4, 4, 4]]]
            (uiLine.rhoSpin : ℚ) uiLine.thetaSpin uiLine.thresholdSpin) 500),
          processedHist := some (lineDetectSpec cvTest [[[4, 4, 4]]] (uiLine.rhoSpin : ℚ)
            uiLine.thetaSpin uiLine.thresholdSpin) } :=
  ⟨(detect_lines_pipeline cvTest).1 [[[4, 4, 4]]] 1 180 100,
   (detect_lines_pipeline cvTest).2 uiLine ⟨some [[[4, 4, 4]]], none, none, none, none, none⟩
     [[[4, 4, 4]]] rfl rfl⟩

lemma process_image_none (cv : CV) (ui : UIParams) (s : AppState)
    (h : s.original = none) : process_image cv ui s = StepResult.ok s := by
  unfold process_image
  rw [h]

lemma process_image_some (cv : CV) (ui : UIParams) (s : AppState) (img : Image)
    (h : s.original = some img) :
    process_image cv ui s
      = (match dispatch cv ui img with
         | Except.error _ => StepResult.crashed s
         | Except.ok out =>
             StepResult.ok { s with processed := some out,
                                    processedDisplay := some (cv.resize out 500),
                                    processedHist := some out }) := by
  unfold process_image
  rw [h]

/-- C9: process_image always computes from the original slot, never from
the processed slot, so a successful process is idempotent on the session
state: running the same method with the same parameters again stores the
identical processed image and leaves the state fixed. -/
theorem process_image_idempotent (cv : CV) (ui : UIParams) (s s1 : AppState)
    (h : process_image cv ui s = StepResult.ok s1) :
    process_image cv ui s1 = StepResult.ok s1 := by
  cases horig : s.original with
  | none =>
      rw [process_image_none cv ui s horig] at h
      injection h with h1
      subst h1
      exact process_image_none cv ui s horig
  | some img =>
      rw [process_image_some cv ui s img horig] at h
      cases hd : dispatch cv ui img with
      | error e =>
          rw [hd] at h
          exact absurd h (by simp)
      | ok out =>
          rw [hd] at h
          injection h with h1
          subst h1
          rw [process_image_some cv ui
                { s with processed := some out,
                         processedDisplay := some (cv.resize out 500),
                         processedHist := some out } img (by simpa using horig), hd]

/-- C9 (witness): edge detection processed twice from the same loaded
image; the second run reproduces the first run's state exactly. -/
theorem process_image_idempotent_witness :
    process_image cvTest uiEdge ⟨some [[[3]]], none, some [[[3]]], none, some [[[3]]], none⟩
      = StepResult.ok ⟨some [[[3]]], some [[[3]]], some [[[3]]], some [[[3]]],
                       some [[[3]]], some [[[3]]]⟩ ∧
    process_image cvTest uiEdge ⟨some [[[3]]], some [[[3]]], some [[[3]]], some [[[3]]],
                                 some [[[3]]], some [[[3]]]⟩
      = StepResult.ok ⟨some [[[3]]], some [[[3]]], some [[[3]]], some [[[3]]],
                       some [[[3]]], some [[[3]]]⟩ :=
  ⟨rfl, process_image_idempotent cvTest uiEdge
      ⟨some [[[3]]], none, some [[[3]]], none, some [[[3]]], none⟩
      ⟨some [[[3]]], some [[[3]]], some [[[3]]], some [[[3]]], some [[[3]]], some [[[3]]]⟩ rfl⟩

lemma run_ok_inv (cv : CV) (acts : List AppAction) :
    ∀ (s0 s : AppState),
      (s0.processed.isSome = true → s0.original.isSome = true) →
      run cv acts s0 = StepResult.ok s →
      (s.processed.isSome = true → s.original.isSome = true) := by
  induction acts with
  | nil =>
      intro s0 s h0 hrun
      unfold run at hrun
      injection hrun with h1
      subst h1
      exact h0
  | cons a rest ih =>
      intro s0 s h0 hrun
      unfold run at hrun
      cases hstep : step cv a s0 with
      | crashed s1 =>
          rw [hstep] at hrun
          exact absurd hrun (by simp)
      | ok s1 =>
          rw [hstep] at hrun
          refine ih s1 s ?_ hrun
          cases a with
          | load f =>
              cases f with
              | none =>
                  simp only [step, load_image] at hstep
                  injection hstep with h1
                  subst h1
                  exact h0
              | some d =>
                  cases d with
                  | none =>
                      simp only [step, load_image] at hstep
                      exact absurd hstep (by simp)
                  | some img =>
                      simp only [step, load_image] at hstep
                      injection hstep with h1
                      subst h1
                      intro hp
                      simp at hp
          | proc ui =>
              simp only [step] at hstep
              cases horig : s0.original with
              | none =>
                  rw [process_image_none cv ui s0 horig] at hstep
                  injection hstep with h1
                  subst h1
                  exact h0
              | some img =>
                  rw [process_image_some cv ui s0 img horig] at hstep
                  cases hd : dispatch cv ui img with
                  | error e =>
                      rw [hd] at hstep
                      exact absurd hstep (by simp)
                  | ok out =>
                      rw [hd] at hstep
                      injection hstep with h1
                      subst h1
                      intro _
                      simp [horig]

/-- C8: over every sequence of load/process actions from the empty session
that completes without the process aborting, the processed slot is
non-empty only when an original image is present (it can only have been
filled by a successful process after a successful load, the only action
that fills the original slot), and a successful load of a new image
returns normally with the processed slot, its preview and its histogram
all cleared. -/
theorem session_processed_invariant (cv : CV) (acts : List AppAction) (s : AppState)
    (h : run cv acts initState = StepResult.ok s) :
    (s.processed.isSome = true → s.original.isSome = true) ∧
    (∀ img : Image,
        (load_image cv (some (some img)) s).state.processed = none ∧
        (load_image cv (some (some img)) s).state.processedDisplay = none ∧
        (load_image cv (some (some img)) s).state.processedHist = none ∧
        load_image cv (some (some img)) s
          = StepResult.ok (load_image cv (some (some img)) s).state) := by
  refine ⟨run_ok_inv cv acts initState s ?_ h, fun img => ⟨rfl, rfl, rfl, rfl⟩⟩
  intro hp
  simp [initState] at hp

/-- C8 (witness): the invariant after a single successful load. -/
theorem session_processed_invariant_witness :
    run cvTest [AppAction.load (some (some [[[1]]]))] initState
      = StepResult.ok ⟨some [[[1]]], none, some [[[1]]], none, some [[[1]]], none⟩ ∧
    ((⟨some [[[1]]], none, some [[[1]]], none, some [[[1]]], none⟩ : AppState).processed.isSome = true →
     (⟨some [[[1]]], none, some [[[1]]], none, some [[[1]]], none⟩ : AppState).original.isSome = true) :=
  ⟨rfl, (session_processed_invariant cvTest [AppAction.load (some (some [[[1]]]))]
      ⟨some [[[1]]], none, some [[[1]]], none, some [[[1]]], none⟩ rfl).1⟩

/-- C10: RGB histogram equalization, HSV histogram equalization and corner
detection all begin with an operation that requires a three-channel input
(channel unpacking after cv2.split, respectively cv2.cvtColor from BGR);
on a single-channel image each raises instead of returning an image, and
on a three-channel image none of them raises. -/
theorem three_channel_precondition (cv : CV) :
    (∀ img : Image, channels img = 1 →
        isError (histogram_equalization_rgb cv img) = true ∧
        isError (histogram_equalization_hsv cv img) = true ∧
        ∀ (mc : Nat) (q : ℚ) (md : Nat),
          isError (detect_corners cv img mc q md) = true) ∧
    (∀ img : Image, channels img = 3 →
        isError (histogram_equalization_rgb cv img) = false ∧
        isError (histogram_equalization_hsv cv img) = false ∧
        ∀ (mc : Nat) (q : ℚ) (md : Nat),
          isError (detect_corners cv img mc q md) = false) := by
  constructor
  · intro img h1
    have h3 : ¬ channels img = 3 := by omega
    refine ⟨?_, ?_, fun mc q md => ?_⟩
    · unfold histogram_equalization_rgb
      rw [if_neg h3]
      rfl
    · unfold histogram_equalization_hsv
      rw [if_neg h3]
      rfl
    · unfold detect_corners
      rw [if_neg h3]
      rfl
  · intro img h3
    refine ⟨?_, ?_, fun mc q md => ?_⟩
    · unfold histogram_equalization_rgb
      rw [if_pos h3]
      rfl
    · unfold histogram_equalization_hsv
      rw [if_pos h3]
      rfl
    · unfold detect_corners
      rw [if_pos h3]
      cases cv.goodFeaturesToTrack (cv.bgr2gray img) mc q md with
      | none => rfl
      | some cs => rfl

/-- C10 (witness): a one-pixel grayscale image and a one-pixel colour
image under the concrete library instance. -/
theorem three_channel_precondition_witness :
    channels [[[5]]] = 1 ∧ channels [[[1, 2, 3]]] = 3 ∧
    isError (histogram_equalization_rgb cvTest [[[5]]]) = true ∧
    isError (histogram_equalization_hsv cvTest [[[5]]]) = true ∧
    isError (detect_corners cvTest [[[5]]] 25 1 10) = true ∧
    isError (histogram_equalization_rgb cvTest [[[1, 2, 3]]]) = false ∧
    isError (histogram_equalization_hsv cvTest [[[1, 2, 3]]]) = false ∧
    isError (detect_corners cvTest [[[1, 2, 3]]] 25 1 10) = false :=
  ⟨rfl, rfl,
   ((three_channel_precondition cvTest).1 [[[5]]] rfl).1,
   ((three_channel_precondition cvTest).1 [[[5]]] rfl).2.1,
   ((three_channel_precondition cvTest).1 [[[5]]] rfl).2.2 25 1 10,
   ((three_channel_precondition cvTest).2 [[[1, 2, 3]]] rfl).1,
   ((three_channel_precondition cvTest).2 [[[1, 2, 3]]] rfl).2.1,
   ((three_channel_precondition cvTest).2 [[[1, 2, 3]]] rfl).2.2 25 1 10⟩
